import Mathlib

/-
  Verification of the Pulse real-time chat backend (NestJS + Prisma + Redis).

  The definitions below are a shallow embedding of the backend source:
  - backend/src/messages/messages.service.ts   (MessagesService)
  - backend/src/conversations/conversations.service.ts (ConversationsService)
  - backend/src/websocket/websocket.module.ts  (ChatGateway, Phase 4 version)
  - backend/src/websocket/chat.gateway.ts      (ChatGateway.handleConnection)
  - backend/src/media/media.service.ts         (MediaService)
  - backend/src/auth/auth.service.ts           (AuthService)
  - backend/src/redis/redis.service.ts         (RedisService)

  The relational store is a record of lists of rows; Prisma transactions are
  modelled as all-or-nothing state updates (an error result carries no state,
  so a rollback leaves the caller with the unchanged database).  Every call
  to `new Date()` or to the database `now()` default is passed in explicitly
  as a timestamp parameter, constrained only where a claim needs it.
-/

namespace Pulse

/-- Timestamps (milliseconds since the epoch), modelled as naturals. -/
abbrev Time := Nat

/-- Error kinds raised by the NestJS services: NotFoundException,
ForbiddenException, BadRequestException, UnauthorizedException, plus a
dependency failure standing for a store write that fails inside a
transaction. -/
inductive ApiError where
  | notFound
  | forbidden
  | badRequest
  | unauthorized
  | dependencyFailure
deriving DecidableEq, Repr

/-- A row of the `User` table (the fields the core reads). -/
structure User where
  id : String
  email : String
  name : Option String
  image : Option String
deriving DecidableEq, Repr

/-- A row of the `ConversationMember` table, kept nested inside its
conversation; `(conversationId, userId)` is unique in the schema. -/
structure ConversationMember where
  userId : String
  role : String
deriving DecidableEq, Repr

/-- A row of the `Conversation` table together with its member rows. -/
structure Conversation where
  id : String
  isGroup : Bool
  name : Option String
  createdAt : Time
  updatedAt : Time
  members : List ConversationMember
deriving DecidableEq, Repr

/-- A row of the `Message` table.  `mediaUrl` and `mediaMeta` were added by
the media migration; `mediaMeta` is opaque JSON and is modelled as a string. -/
structure Message where
  id : String
  conversationId : String
  senderId : String
  content : Option String
  type : String
  mediaUrl : Option String
  createdAt : Time
deriving DecidableEq, Repr

/-- A row of the `MessageStatus` table; `(messageId, userId)` is unique in
the schema. -/
structure MessageStatus where
  messageId : String
  userId : String
  deliveredAt : Option Time
  readAt : Option Time
deriving DecidableEq, Repr

/-- The relational store: one list of rows per table. -/
structure DB where
  users : List User
  conversations : List Conversation
  messages : List Message
  statuses : List MessageStatus
deriving DecidableEq, Repr

/-- The payload accepted by `send_message` / `POST /messages`
(SendMessagePayload in websocket/events.ts: `content`, `mediaUrl` and
`mediaMeta` are optional, `type` is one of text, image, video). -/
structure SendMessageDto where
  conversationId : String
  content : Option String
  type : String
  mediaUrl : Option String
  mediaMeta : Option String
deriving DecidableEq, Repr

/-- Embedding of `MessagesService.send` (messages.service.ts).  The service
destructures only `conversationId`, `content` and `type` from the dto, loads
the conversation with its members (NotFound when absent), checks that the
sender is a member (Forbidden otherwise), and then, inside one
`prisma.$transaction`: creates the message (the database fills `createdAt`
with `now()`, passed here as `tCreate`; `mediaUrl` is not among the fields
given to `message.create`, so the column keeps its null default), bulk
creates one status row per member (the sender row gets `deliveredAt = new
Date()`, passed here as `tStatus`; all other rows get null delivered and
read times), and sets the conversation `updatedAt` to `new Date()`, passed
here as `tUpdate`.  `newId` is the uuid the database assigns to the message;
`txFails` injects a write failure inside the transaction, which Prisma rolls
back, so the error result carries no state. -/
def MessagesService.send (db : DB) (userId : String) (dto : SendMessageDto)
    (newId : String) (tCreate tStatus tUpdate : Time) (txFails : Bool) :
    Except ApiError (DB × Message) :=
  match db.conversations.find? (fun c => c.id == dto.conversationId) with
  | none => .error .notFound
  | some conversation =>
    if conversation.members.any (fun m => m.userId == userId) then
      if txFails then .error .dependencyFailure
      else
        let newMessage : Message :=
          { id := newId
            conversationId := dto.conversationId
            senderId := userId
            content := dto.content
            type := dto.type
            mediaUrl := none
            createdAt := tCreate }
        let statusData : List MessageStatus := conversation.members.map (fun member =>
          { messageId := newMessage.id
            userId := member.userId
            deliveredAt := if member.userId == userId then some tStatus else none
            readAt := none })
        .ok ({ db with
                messages := db.messages ++ [newMessage]
                statuses := db.statuses ++ statusData
                conversations := db.conversations.map (fun c =>
                  if c.id == dto.conversationId then { c with updatedAt := tUpdate } else c) },
             newMessage)
    else .error .forbidden

/-- Stable insertion of a message into a list kept in descending `createdAt`
order: the new message goes after every already-placed message that is at
least as recent, matching the SQL `ORDER BY createdAt DESC` the service
requests from Prisma. -/
def insertDesc (x : Message) : List Message → List Message
  | [] => [x]
  | y :: ys => if x.createdAt ≤ y.createdAt then y :: insertDesc x ys else x :: y :: ys

/-- Sort messages by `createdAt` descending (insertion sort). -/
def sortDesc (l : List Message) : List Message := l.foldr insertDesc []

/-- The page shape returned by `MessagesService.findByConversation`:
`{ messages, nextCursor, hasMore }`. -/
structure PageResult where
  messages : List Message
  nextCursor : Option Time
  hasMore : Bool
deriving DecidableEq, Repr

/-- Embedding of `MessagesService.findByConversation`
(messages.service.ts).  Loads the conversation (NotFound when absent) with
its member rows filtered to the caller (Forbidden when that list is empty),
filters messages of the conversation to those with `createdAt` strictly
before the cursor when one is given, orders them `createdAt` descending,
takes up to `limit` rows, and returns them with `nextCursor` equal to the
`createdAt` of the last returned message when exactly `limit` rows came
back (null otherwise) and `hasMore` true exactly in that case.  The source
indexes `messages[messages.length - 1]` for the cursor; the embedding uses
the total `getLast?`, which only differs at `limit = 0`, a value the REST
surface never passes (the query parameter defaults to 20). -/
def MessagesService.findByConversation (db : DB) (conversationId userId : String)
    (cursor : Option Time) (limit : Nat) : Except ApiError PageResult :=
  match db.conversations.find? (fun c => c.id == conversationId) with
  | none => .error .notFound
  | some conversation =>
    if conversation.members.any (fun m => m.userId == userId) then
      let filtered := db.messages.filter (fun m =>
        m.conversationId == conversationId &&
          match cursor with
          | some c => decide (m.createdAt < c)
          | none => true)
      let page := (sortDesc filtered).take limit
      .ok { messages := page
            nextCursor := if page.length == limit then page.getLast?.map (·.createdAt) else none
            hasMore := page.length == limit }
    else .error .forbidden

/-- Embedding of `ConversationsService.validateMembership`
(conversations.service.ts): a unique lookup in the ConversationMember table
by `(conversationId, userId)`. -/
def ConversationsService.validateMembership (db : DB) (conversationId userId : String) : Bool :=
  db.conversations.any (fun c =>
    c.id == conversationId && c.members.any (fun m => m.userId == userId))

/-- String comparison used to model the JavaScript `Array.prototype.sort()`
call on member-id arrays. -/
def stringLe (a b : String) : Bool := decide (a ≤ b)

/-- Ascending insertion of a string into a sorted list. -/
def insertStr (x : String) : List String → List String
  | [] => [x]
  | y :: ys => if stringLe x y then x :: y :: ys else y :: insertStr x ys

/-- Ascending sort of a list of strings (insertion sort), the canonical form
the source compares with `JSON.stringify` after calling `.sort()`. -/
def sortStrings (l : List String) : List String := l.foldr insertStr []

/-- The body of `POST /conversations` (CreateConversationDto): `userIds`
plus the optional `isGroup` (already defaulted to false here, as in the
service destructuring) and optional `name`. -/
structure CreateConversationDto where
  userIds : List String
  isGroup : Bool
  name : Option String
deriving DecidableEq, Repr

/-- True when the JavaScript value of the optional name is falsy (absent or
the empty string), matching `if (isGroup && !name)`. -/
def nameFalsy : Option String → Bool
  | none => true
  | some s => s.isEmpty

/-- Embedding of `ConversationsService.create` (conversations.service.ts).
Validates group cardinality and naming, checks that every referenced user
exists (`findMany where id in userIds` returns as many users as ids), and
for a direct conversation runs `findFirst` over conversations with
`isGroup = false` whose members all have `userId` in `[userId, otherUserId]`
(a subset condition); when that first match has exactly two members whose
sorted id array equals the sorted target pair, the existing conversation is
returned with the store untouched.  Otherwise a conversation row and its
member rows are inserted atomically, the creator first with role admin for
groups and member otherwise. -/
def ConversationsService.create (db : DB) (userId : String) (dto : CreateConversationDto)
    (newId : String) (now : Time) : Except ApiError (DB × Conversation) :=
  if dto.isGroup && nameFalsy dto.name then .error .badRequest
  else if dto.isGroup && decide (dto.userIds.length < 2) then .error .badRequest
  else if !dto.isGroup && !(dto.userIds.length == 1) then .error .badRequest
  else if !((db.users.filter (fun u => dto.userIds.contains u.id)).length == dto.userIds.length)
    then .error .badRequest
  else
    let newConversation : Conversation :=
      { id := newId
        isGroup := dto.isGroup
        name := if dto.isGroup then dto.name else none
        createdAt := now
        updatedAt := now
        members :=
          { userId := userId, role := if dto.isGroup then "admin" else "member" }
            :: dto.userIds.map (fun i => { userId := i, role := "member" }) }
    let inserted : DB × Conversation :=
      ({ db with conversations := db.conversations ++ [newConversation] }, newConversation)
    if dto.isGroup then .ok inserted
    else
      let otherUserId := dto.userIds.headD ""
      match db.conversations.find? (fun c =>
        !c.isGroup && c.members.all (fun m => m.userId == userId || m.userId == otherUserId)) with
      | some existing =>
        if existing.members.length == 2 &&
            sortStrings (existing.members.map (·.userId)) == sortStrings [userId, otherUserId]
        then .ok (db, existing)
        else .ok inserted
      | none => .ok inserted

/-- Embedding of `ChatGateway.handleSendMessage` (websocket.module.ts,
Phase 4 version).  Requires an authenticated socket, requires
`conversationId` and `type` to be truthy, requires `type` to be one of
text, image, video, requires truthy `content` for text and truthy
`mediaUrl` for image and video, and then calls `MessagesService.send`
(which rechecks membership and persists).  On success the gateway publishes
the `{messageId, conversationId, senderId}` tuple on the bus and replies
with the message id; the returned message is the persisted one. -/
def ChatGateway.handleSendMessage (db : DB) (clientUserId : Option String)
    (payload : SendMessageDto) (newId : String) (tCreate tStatus tUpdate : Time)
    (txFails : Bool) : Except ApiError (DB × Message) :=
  match clientUserId with
  | none => .error .unauthorized
  | some uid =>
    if payload.conversationId == "" || payload.type == "" then .error .badRequest
    else if !(["text", "image", "video"].contains payload.type) then .error .badRequest
    else if payload.type == "text" && (payload.content.getD "").isEmpty then .error .badRequest
    else if (payload.type == "image" || payload.type == "video")
        && (payload.mediaUrl.getD "").isEmpty then .error .badRequest
    else MessagesService.send db uid payload newId tCreate tStatus tUpdate txFails

/-- The receipt payload broadcast to the room by `message_delivered`. -/
structure MessageDeliveredOut where
  conversationId : String
  messageId : String
  userId : String
  deliveredAt : Time
deriving DecidableEq, Repr

/-- Embedding of `ChatGateway.handleMessageDelivered` (websocket.module.ts).
Requires an authenticated socket, truthy payload fields and membership in
the conversation, then runs `messageStatus.updateMany` setting
`deliveredAt = now` on the rows of the caller for that message whose
`deliveredAt` is still null, and broadcasts the receipt to the room. -/
def ChatGateway.handleMessageDelivered (db : DB) (clientUserId : Option String)
    (conversationId messageId : String) (now : Time) :
    Except ApiError (DB × MessageDeliveredOut) :=
  match clientUserId with
  | none => .error .unauthorized
  | some uid =>
    if conversationId == "" || messageId == "" then .error .badRequest
    else if !ConversationsService.validateMembership db conversationId uid then .error .forbidden
    else
      .ok ({ db with statuses := db.statuses.map (fun s =>
              if s.messageId == messageId && s.userId == uid && s.deliveredAt == none
              then { s with deliveredAt := some now } else s) },
           { conversationId := conversationId, messageId := messageId
             userId := uid, deliveredAt := now })

/-- The receipt payload broadcast to the room by `message_read`; it carries
the ids that were actually found in the conversation. -/
structure MessageReadOut where
  conversationId : String
  messageIds : List String
  userId : String
  readAt : Time
deriving DecidableEq, Repr

/-- The first `updateMany` of the `message_read` transaction: set
`deliveredAt = now` on the rows of the caller whose message id is in the
valid batch and whose `deliveredAt` is still null. -/
def markDeliveredRows (validIds : List String) (uid : String) (now : Time)
    (statuses : List MessageStatus) : List MessageStatus :=
  statuses.map (fun s =>
    if validIds.contains s.messageId && s.userId == uid && s.deliveredAt == none
    then { s with deliveredAt := some now } else s)

/-- The second `updateMany` of the `message_read` transaction: set
`readAt = now` on the rows of the caller whose message id is in the valid
batch and whose `readAt` is still null. -/
def markReadRows (validIds : List String) (uid : String) (now : Time)
    (statuses : List MessageStatus) : List MessageStatus :=
  statuses.map (fun s =>
    if validIds.contains s.messageId && s.userId == uid && s.readAt == none
    then { s with readAt := some now } else s)

/-- Embedding of `ChatGateway.handleMessageRead` (websocket.module.ts).
Requires an authenticated socket, a truthy conversation id and a non-empty
batch, membership in the conversation, and at least one message of the
batch that belongs to the stated conversation (BadRequest otherwise).  In
one transaction it then sets `deliveredAt = now` on the rows of the caller
for the valid ids whose `deliveredAt` is null, and `readAt = now` on those
whose `readAt` is null, and broadcasts the valid ids to the room. -/
def ChatGateway.handleMessageRead (db : DB) (clientUserId : Option String)
    (conversationId : String) (messageIds : List String) (now : Time) :
    Except ApiError (DB × MessageReadOut) :=
  match clientUserId with
  | none => .error .unauthorized
  | some uid =>
    if conversationId == "" || messageIds.isEmpty then .error .badRequest
    else if !ConversationsService.validateMembership db conversationId uid then .error .forbidden
    else
      let valid := db.messages.filter (fun m =>
        messageIds.contains m.id && m.conversationId == conversationId)
      if valid.isEmpty then .error .badRequest
      else
        let validMessageIds := valid.map (·.id)
        let afterRead := markReadRows validMessageIds uid now
          (markDeliveredRows validMessageIds uid now db.statuses)
        .ok ({ db with statuses := afterRead },
             { conversationId := conversationId, messageIds := validMessageIds
               userId := uid, readAt := now })

/-- Media classification result of `MediaService.getMediaType`. -/
inductive MediaType where
  | image
  | video
deriving DecidableEq, Repr

/-- `MediaService.MAX_IMAGE_SIZE` (media.service.ts): 5 MiB in bytes. -/
def MediaService.MAX_IMAGE_SIZE : Nat := 5242880

/-- `MediaService.MAX_VIDEO_SIZE` (media.service.ts): 20 MiB in bytes. -/
def MediaService.MAX_VIDEO_SIZE : Nat := 20971520

/-- `MediaService.ALLOWED_IMAGE_TYPES` (media.service.ts). -/
def MediaService.ALLOWED_IMAGE_TYPES : List String :=
  ["image/jpeg", "image/png", "image/gif", "image/webp"]

/-- `MediaService.ALLOWED_VIDEO_TYPES` (media.service.ts). -/
def MediaService.ALLOWED_VIDEO_TYPES : List String :=
  ["video/mp4", "video/quicktime", "video/webm"]

/-- Embedding of `MediaService.getMediaType`: image when the mime type is in
the image whitelist, video when in the video whitelist, null otherwise. -/
def MediaService.getMediaType (mimeType : String) : Option MediaType :=
  if MediaService.ALLOWED_IMAGE_TYPES.contains mimeType then some .image
  else if MediaService.ALLOWED_VIDEO_TYPES.contains mimeType then some .video
  else none

/-- Embedding of `MediaService.validateFileSize`: BadRequest when an image
exceeds `MAX_IMAGE_SIZE` or a video exceeds `MAX_VIDEO_SIZE` (strict
comparisons, so the limits themselves are accepted). -/
def MediaService.validateFileSize (mediaType : MediaType) (fileSize : Nat) :
    Except ApiError Unit :=
  if mediaType == .image && decide (MediaService.MAX_IMAGE_SIZE < fileSize)
    then .error .badRequest
  else if mediaType == .video && decide (MediaService.MAX_VIDEO_SIZE < fileSize)
    then .error .badRequest
  else .ok ()

/-- Embedding of `MediaService.requestUploadUrl` (media.service.ts) up to
its decision: membership check (Forbidden), media classification
(BadRequest on an unsupported type), file size validation.  Steps 4 and 5
of the source, path generation and signed-URL creation, call the external
blob store and return its answer unchanged, so the embedding returns the
computed media type on success.  `isMember` is the answer of
`ConversationsService.validateMembership` for the caller. -/
def MediaService.requestUploadUrl (isMember : Bool) (mimeType : String)
    (fileSize : Nat) : Except ApiError MediaType :=
  if !isMember then .error .forbidden
  else
    match MediaService.getMediaType mimeType with
    | none => .error .badRequest
    | some mediaType =>
      match MediaService.validateFileSize mediaType fileSize with
      | .error e => .error e
      | .ok _ => .ok mediaType

/-- The decoded JWT payload carried by a verified bearer token
(auth.service.ts). -/
structure JwtPayload where
  sub : String
  email : String
  name : String
deriving DecidableEq, Repr

/-- Embedding of `AuthService.validateToken` (auth.service.ts).  The
`jwt.verify` call is an external library: `verified` is its outcome, `none`
when the token is expired, carries a bad signature or is otherwise
malformed (verify throws, and the catch returns null), `some payload` when
the signature and expiry check out.  A verified subject that does not
resolve to a persisted user also yields null. -/
def AuthService.validateToken (db : DB) (verified : Option JwtPayload) : Option User :=
  match verified with
  | none => none
  | some decoded => db.users.find? (fun u => u.id == decoded.sub)

/-- An entry of the ephemeral presence store: a Redis key, its value and
its remaining time to live in seconds. -/
structure PresenceEntry where
  key : String
  value : String
  ttl : Nat
deriving DecidableEq, Repr

/-- The ephemeral presence store: the set of live Redis keys. -/
abbrev PresenceStore := List PresenceEntry

/-- The presence key for a user (redis.service.ts). -/
def presenceKey (userId : String) : String := "user:" ++ userId ++ ":online"

/-- Redis `SET key value EX ttl`: upserts the key with a fresh expiry. -/
def redisSetEx (store : PresenceStore) (key value : String) (ttl : Nat) : PresenceStore :=
  if store.any (fun e => e.key == key) then
    store.map (fun e => if e.key == key then { key := key, value := value, ttl := ttl } else e)
  else store ++ [{ key := key, value := value, ttl := ttl }]

/-- Redis `GET key`. -/
def redisGet (store : PresenceStore) (key : String) : Option String :=
  (store.find? (fun e => e.key == key)).map (·.value)

/-- Redis `DEL key`. -/
def redisDel (store : PresenceStore) (key : String) : PresenceStore :=
  store.filter (fun e => !(e.key == key))

/-- Redis `EXPIRE key ttl`: refreshes the expiry of an existing key; when
the key does not exist the command returns 0 and writes nothing. -/
def redisExpire (store : PresenceStore) (key : String) (ttl : Nat) : PresenceStore :=
  store.map (fun e => if e.key == key then { e with ttl := ttl } else e)

/-- `RedisService.setUserOnline`: `SET user:{id}:online true EX 60`. -/
def RedisService.setUserOnline (store : PresenceStore) (userId : String) : PresenceStore :=
  redisSetEx store (presenceKey userId) "true" 60

/-- `RedisService.setUserOffline`: `DEL user:{id}:online`. -/
def RedisService.setUserOffline (store : PresenceStore) (userId : String) : PresenceStore :=
  redisDel store (presenceKey userId)

/-- `RedisService.isUserOnline`: `GET user:{id}:online` compared against
the literal string true. -/
def RedisService.isUserOnline (store : PresenceStore) (userId : String) : Bool :=
  redisGet store (presenceKey userId) == some "true"

/-- `RedisService.extendPresence`: a bare `EXPIRE user:{id}:online 60`. -/
def RedisService.extendPresence (store : PresenceStore) (userId : String) : PresenceStore :=
  redisExpire store (presenceKey userId) 60

/-- What `ChatGateway.handleConnection` leaves behind: whether the socket
was disconnected, the subject attached to the connection, the user id
carried by the `connected` acknowledgement when one was emitted, and the
presence store after the handler. -/
structure ConnectionResult where
  disconnected : Bool
  attachedUserId : Option String
  connectedAck : Option String
  store : PresenceStore
deriving DecidableEq, Repr

/-- Embedding of `ChatGateway.handleConnection` (chat.gateway.ts).  A
missing or falsy handshake token disconnects the client immediately, as
does a token that `AuthService.validateToken` rejects; in both cases
nothing is written to the presence store.  On success the subject is
attached to the connection, `setUserOnline` marks the user online with a
60 second TTL, and a `connected` acknowledgement carrying the user id is
emitted. -/
def ChatGateway.handleConnection (db : DB) (store : PresenceStore)
    (token : Option String) (verified : Option JwtPayload) : ConnectionResult :=
  match token with
  | none =>
    { disconnected := true, attachedUserId := none, connectedAck := none, store := store }
  | some t =>
    if t.isEmpty then
      { disconnected := true, attachedUserId := none, connectedAck := none, store := store }
    else
      match AuthService.validateToken db verified with
      | none =>
        { disconnected := true, attachedUserId := none, connectedAck := none, store := store }
      | some user =>
        { disconnected := false
          attachedUserId := some user.id
          connectedAck := some user.id
          store := RedisService.setUserOnline store user.id }

/-- Embedding of `ChatGateway.handleHeartbeat` (websocket.module.ts): on an
authenticated socket it calls `extendPresence` and replies ok (`true`); an
unauthenticated socket gets no reply and nothing happens. -/
def ChatGateway.handleHeartbeat (store : PresenceStore) (clientUserId : Option String) :
    PresenceStore × Bool :=
  match clientUserId with
  | some uid => (RedisService.extendPresence store uid, true)
  | none => (store, false)

/-! Helper lemmas shared by several of the claim theorems. -/

/-- In a list whose image under `f` has no duplicates, exactly one element
has key `b` as soon as one does. -/
theorem filter_key_length_one {α β : Type} [DecidableEq β] (f : α → β) (b : β) :
    ∀ l : List α, (l.map f).Nodup → l.any (fun x => f x == b) = true →
      (l.filter (fun x => f x == b)).length = 1 := by
  intro l
  induction l with
  | nil => simp
  | cons a as ih =>
    intro hnd hany
    rw [List.map_cons, List.nodup_cons] at hnd
    rw [List.filter_cons]
    by_cases hfa : f a = b
    · have hh : (f a == b) = true := by simp [hfa]
      rw [hh]
      simp only [if_true, List.length_cons, Nat.add_left_eq_self]
      rw [List.length_eq_zero, List.filter_eq_nil_iff]
      intro x hx
      have hmap : f x ∈ as.map f := List.mem_map_of_mem f hx
      intro hcontra
      have hfx : f x = b := by simpa using hcontra
      exact hnd.1 (by rw [hfa, ← hfx]; exact hmap)
    · have hh : (f a == b) = false := by simp [hfa]
      rw [hh]
      simp only [Bool.false_eq_true, if_false]
      refine ih hnd.2 ?_
      rw [List.any_cons, hh, Bool.false_or] at hany
      exact hany

/-- When exactly one element (up to equality) of a list satisfies the
predicate, `find?` returns it. -/
theorem find?_of_unique {α : Type} (p : α → Bool) (c : α) :
    ∀ l : List α, c ∈ l → p c = true → (∀ x ∈ l, p x = true → x = c) →
      l.find? p = some c := by
  intro l
  induction l with
  | nil => intro h; cases h
  | cons a as ih =>
    intro hc hpc huniq
    by_cases hpa : p a = true
    · have : a = c := huniq a (List.mem_cons_self a as) hpa
      rw [List.find?_cons_of_pos _ hpa, this]
    · have hpa' : p a = false := by revert hpa; cases p a <;> simp
      rw [List.find?_cons_of_neg _ (by simp [hpa'])]
      have hcas : c ∈ as := by
        rcases List.mem_cons.mp hc with h | h
        · exact absurd (h ▸ hpc) (by simp [hpa'])
        · exact h
      exact ih hcas hpc (fun x hx hpx => huniq x (List.mem_cons_of_mem a hx) hpx)

/-- A two-element sorted list does not depend on the order of its inputs. -/
theorem sortStrings_pair_comm (a b : String) :
    sortStrings [a, b] = sortStrings [b, a] := by
  simp only [sortStrings, List.foldr, insertStr, stringLe]
  by_cases hab : a ≤ b
  · by_cases hba : b ≤ a
    · have : a = b := le_antisymm hab hba
      subst this
      simp
    · simp [hab, hba]
  · have hba : b ≤ a := le_of_not_le hab
    simp [hab, hba]

/-- The permutations of an explicit pair. -/
theorem perm_pair_eq {α : Type} {l : List α} {a b : α} (h : l.Perm [a, b]) :
    l = [a, b] ∨ l = [b, a] := by
  have hlen : l.length = 2 := by simpa using h.length_eq
  obtain ⟨x, y, rfl⟩ := List.length_eq_two.mp hlen
  have hx : x ∈ [a, b] := h.mem_iff.mp (by simp)
  rcases List.mem_pair.mp hx with rfl | rfl
  · left
    have hy : [y].Perm [b] := h.cons_inv
    rw [List.perm_singleton.mp hy]
  · right
    have h2 : [x, y].Perm [x, a] := h.trans (List.Perm.swap x a [])
    have hy : [y].Perm [a] := h2.cons_inv
    rw [List.perm_singleton.mp hy]

/-- A duplicate-free two-element list over a two-element carrier is a
permutation of the pair. -/
theorem perm_of_two_choices {l : List String} {u o : String}
    (hlen : l.length = 2) (hnd : l.Nodup) (hall : ∀ a ∈ l, a = u ∨ a = o) :
    l.Perm [u, o] := by
  obtain ⟨x, y, rfl⟩ := List.length_eq_two.mp hlen
  have hxy : x ≠ y := by simpa using hnd
  rcases hall x (by simp) with rfl | rfl
  · rcases hall y (by simp) with rfl | rfl
    · exact absurd rfl hxy
    · exact List.Perm.refl _
  · rcases hall y (by simp) with rfl | rfl
    · exact List.Perm.swap y x []
    · exact absurd rfl hxy

/-- Replacing every entry with a given key and then looking that key up
finds the replacement, provided some entry had the key. -/
theorem find?_map_replace (k v : String) (t : Nat) :
    ∀ s : PresenceStore, s.any (fun e => e.key == k) = true →
      (s.map (fun e => if e.key == k then { key := k, value := v, ttl := t } else e)).find?
        (fun e => e.key == k) = some { key := k, value := v, ttl := t } := by
  intro s
  induction s with
  | nil => intro h; simp at h
  | cons a as ih =>
    intro hany
    rw [List.map_cons]
    by_cases ha : a.key = k
    · rw [if_pos (by simp [ha])]
      exact List.find?_cons_of_pos _ (by simp)
    · rw [if_neg (by simp [ha])]
      rw [List.find?_cons_of_neg _ (by simp [ha])]
      refine ih ?_
      rw [List.any_cons] at hany
      simpa [ha] using hany

/-- After `SET key value EX ttl`, looking the key up finds the fresh entry. -/
theorem find?_redisSetEx (k v : String) (t : Nat) (s : PresenceStore) :
    (redisSetEx s k v t).find? (fun e => e.key == k) =
      some { key := k, value := v, ttl := t } := by
  unfold redisSetEx
  split
  · rename_i hany
    exact find?_map_replace k v t s hany
  · rename_i hany
    rw [List.find?_append]
    have hnone : s.find? (fun e => e.key == k) = none := by
      rw [List.find?_eq_none]
      intro x hx hpx
      exact hany (List.any_eq_true.mpr ⟨x, hx, hpx⟩)
    rw [hnone]
    simp [List.find?_cons_of_pos]

/-- `EXPIRE` on a key that is not present writes nothing. -/
theorem redisExpire_absent (s : PresenceStore) (k : String) (t : Nat)
    (habs : s.find? (fun e => e.key == k) = none) :
    redisExpire s k t = s := by
  unfold redisExpire
  rw [List.find?_eq_none] at habs
  have hcongr : ∀ e ∈ s, (if e.key == k then { e with ttl := t } else e) = e := by
    intro e he
    rw [if_neg (by simpa using habs e he)]
  rw [List.map_congr_left hcongr]
  simp

/-- C10.  The heartbeat handler runs `extendPresence`, a bare Redis `EXPIRE`
on `user:{id}:online`: when that key is absent (already expired or deleted)
nothing is recreated or written, the presence state is unchanged and
`isUserOnline` still answers false afterwards; only `setUserOnline` (run on
a new connection) brings the user back online. -/
theorem heartbeat_absent_key_is_noop (store : PresenceStore) (uid : String)
    (habs : store.find? (fun e => e.key == presenceKey uid) = none) :
    (ChatGateway.handleHeartbeat store (some uid)).1 = store ∧
    RedisService.isUserOnline (ChatGateway.handleHeartbeat store (some uid)).1 uid = false ∧
    RedisService.isUserOnline (RedisService.setUserOnline store uid) uid = true := by
  have hexp : RedisService.extendPresence store uid = store :=
    redisExpire_absent store (presenceKey uid) 60 habs
  refine ⟨?_, ?_, ?_⟩
  · simpa [ChatGateway.handleHeartbeat] using hexp
  · simp [ChatGateway.handleHeartbeat, hexp, RedisService.isUserOnline, redisGet, habs]
  · simp [RedisService.isUserOnline, RedisService.setUserOnline, redisGet, find?_redisSetEx]

/-- Closed instance of `heartbeat_absent_key_is_noop`: on an empty presence
store a heartbeat for user u writes nothing and the user stays offline. -/
theorem heartbeat_absent_key_is_noop_witness :
    (ChatGateway.handleHeartbeat [] (some "u")).1 = [] ∧
    RedisService.isUserOnline (ChatGateway.handleHeartbeat [] (some "u")).1 "u" = false ∧
    RedisService.isUserOnline (RedisService.setUserOnline [] "u") "u" = true :=
  heartbeat_absent_key_is_noop [] "u" (by rfl)

/-- C9.  On the socket handshake: a missing credential, a credential the
verifier rejects (expired, bad signature, malformed), or a verified subject
with no persisted user row each close the connection and leave the presence
store untouched, so the presence key for the user is never created; on
success the gateway attaches the subject, marks the user online with value
true and a 60 second TTL, and emits the `connected` acknowledgement
carrying the subject id. -/
theorem handshake_auth_gate (db : DB) (store : PresenceStore)
    (verified : Option JwtPayload) :
    (ChatGateway.handleConnection db store none verified =
      { disconnected := true, attachedUserId := none, connectedAck := none, store := store }) ∧
    (∀ t, t ≠ "" → verified = none →
      ChatGateway.handleConnection db store (some t) verified =
        { disconnected := true, attachedUserId := none, connectedAck := none, store := store }) ∧
    (∀ t p, t ≠ "" → verified = some p →
      db.users.find? (fun u => u.id == p.sub) = none →
      ChatGateway.handleConnection db store (some t) verified =
        { disconnected := true, attachedUserId := none, connectedAck := none, store := store }) ∧
    (∀ t user, t ≠ "" → AuthService.validateToken db verified = some user →
      ChatGateway.handleConnection db store (some t) verified =
        { disconnected := false, attachedUserId := some user.id,
          connectedAck := some user.id,
          store := RedisService.setUserOnline store user.id } ∧
      redisGet (ChatGateway.handleConnection db store (some t) verified).store
          (presenceKey user.id) = some "true" ∧
      ((ChatGateway.handleConnection db store (some t) verified).store.find?
          (fun e => e.key == presenceKey user.id)).map (·.ttl) = some 60) := by
  refine ⟨rfl, ?_, ?_, ?_⟩
  · intro t ht hv
    simp [ChatGateway.handleConnection, AuthService.validateToken, hv,
      String.isEmpty_iff, ht]
  · intro t p ht hv hu
    simp [ChatGateway.handleConnection, AuthService.validateToken, hv, hu,
      String.isEmpty_iff, ht]
  · intro t user ht hv
    have hres : ChatGateway.handleConnection db store (some t) verified =
        { disconnected := false, attachedUserId := some user.id,
          connectedAck := some user.id,
          store := RedisService.setUserOnline store user.id } := by
      simp [ChatGateway.handleConnection, hv, String.isEmpty_iff, ht]
    refine ⟨hres, ?_, ?_⟩
    · rw [hres]
      simp [RedisService.setUserOnline, redisGet, find?_redisSetEx]
    · rw [hres]
      simp [RedisService.setUserOnline, find?_redisSetEx]

/-- Closed instance of `handshake_auth_gate`: with one persisted user, an
expired or forged credential (verifier answers none) closes the connection
and creates no presence key, while a verified credential for that user
creates `user:u:online` with TTL 60. -/
theorem handshake_auth_gate_witness :
    (ChatGateway.handleConnection
        { users := [{ id := "u", email := "u@example.com", name := none, image := none }],
          conversations := [], messages := [], statuses := [] } [] (some "tok") none =
      { disconnected := true, attachedUserId := none, connectedAck := none, store := [] }) ∧
    (ChatGateway.handleConnection
        { users := [{ id := "u", email := "u@example.com", name := none, image := none }],
          conversations := [], messages := [], statuses := [] } [] (some "tok")
        (some { sub := "u", email := "u@example.com", name := "u" }) =
      { disconnected := false, attachedUserId := some "u", connectedAck := some "u",
        store := RedisService.setUserOnline [] "u" }) := by
  constructor
  · exact (handshake_auth_gate _ [] none).2.1 "tok" (by decide) rfl
  · exact ((handshake_auth_gate _ []
      (some { sub := "u", email := "u@example.com", name := "u" })).2.2.2 "tok"
      { id := "u", email := "u@example.com", name := none, image := none }
      (by decide) (by rfl)).1

/-- C8.  `requestUploadUrl` classifies the upload as image exactly for the
four whitelisted image mime types and as video exactly for the three
whitelisted video mime types, rejects any other mime type as bad-request,
accepts an image of exactly 5 MiB and rejects 5 MiB + 1, and accepts a
video of exactly 20 MiB and rejects 20 MiB + 1. -/
theorem upload_url_classification_and_limits :
    (∀ mime, MediaService.getMediaType mime = some MediaType.image ↔
        mime ∈ MediaService.ALLOWED_IMAGE_TYPES) ∧
    (∀ mime, MediaService.getMediaType mime = some MediaType.video ↔
        mime ∈ MediaService.ALLOWED_VIDEO_TYPES) ∧
    (∀ mime fileSize, mime ∉ MediaService.ALLOWED_IMAGE_TYPES →
        mime ∉ MediaService.ALLOWED_VIDEO_TYPES →
        MediaService.requestUploadUrl true mime fileSize = .error .badRequest) ∧
    MediaService.requestUploadUrl true "image/jpeg" 5242880 = .ok MediaType.image ∧
    MediaService.requestUploadUrl true "image/jpeg" 5242881 = .error .badRequest ∧
    MediaService.requestUploadUrl true "video/mp4" 20971520 = .ok MediaType.video ∧
    MediaService.requestUploadUrl true "video/mp4" 20971521 = .error .badRequest := by
  refine ⟨?_, ?_, ?_, by rfl, by rfl, by rfl, by rfl⟩
  · intro mime
    unfold MediaService.getMediaType
    by_cases h : mime ∈ MediaService.ALLOWED_IMAGE_TYPES
    · simp [List.contains, List.elem_iff, h]
    · by_cases h2 : mime ∈ MediaService.ALLOWED_VIDEO_TYPES <;>
        simp [List.contains, List.elem_iff, h, h2]
  · intro mime
    unfold MediaService.getMediaType
    by_cases h : mime ∈ MediaService.ALLOWED_IMAGE_TYPES
    · have hnv : mime ∉ MediaService.ALLOWED_VIDEO_TYPES := by
        simp only [MediaService.ALLOWED_IMAGE_TYPES, List.mem_cons,
          List.not_mem_nil, or_false] at h
        rcases h with rfl | rfl | rfl | rfl <;> decide
      simp [List.contains, List.elem_iff, h, hnv]
    · by_cases h2 : mime ∈ MediaService.ALLOWED_VIDEO_TYPES <;>
        simp [List.contains, List.elem_iff, h, h2]
  · intro mime fileSize h1 h2
    unfold MediaService.requestUploadUrl MediaService.getMediaType
    simp [List.contains, List.elem_iff, h1, h2]

/-- Closed instance of `upload_url_classification_and_limits`: a pdf upload
is rejected as bad-request whatever its size. -/
theorem upload_url_classification_witness :
    MediaService.requestUploadUrl true "application/pdf" 100 = .error .badRequest :=
  upload_url_classification_and_limits.2.2.1 "application/pdf" 100
    (by decide) (by decide)

/-- C1.  For an actor who is a member of an existing conversation, a
successful send persists, in one atomic transaction, exactly one new
message plus one status row per conversation member, the sender row with
`deliveredAt` set and every other member row with null `deliveredAt` and
`readAt`, and sets the conversation `updatedAt` in the same step while
touching nothing else; and when a write inside the transaction fails the
whole call errors out and no new state is produced. -/
theorem send_atomic_status_fanout (db : DB) (userId : String) (dto : SendMessageDto)
    (newId : String) (tCreate tStatus tUpdate : Time) (conv : Conversation)
    (hconv : db.conversations.find? (fun c => c.id == dto.conversationId) = some conv)
    (hmem : conv.members.any (fun m => m.userId == userId) = true) :
    (∃ m : Message,
      MessagesService.send db userId dto newId tCreate tStatus tUpdate false =
        .ok ({ db with
                messages := db.messages ++ [m]
                statuses := db.statuses ++ conv.members.map (fun member =>
                  { messageId := m.id
                    userId := member.userId
                    deliveredAt := if member.userId == userId then some tStatus else none
                    readAt := none })
                conversations := db.conversations.map (fun c =>
                  if c.id == dto.conversationId then { c with updatedAt := tUpdate } else c) },
              m) ∧
      m.id = newId ∧ m.senderId = userId ∧ m.conversationId = dto.conversationId ∧
      m.createdAt = tCreate ∧
      (∀ member ∈ conv.members, member.userId ≠ userId →
        ({ messageId := m.id, userId := member.userId, deliveredAt := none,
           readAt := none } : MessageStatus) =
          { messageId := m.id
            userId := member.userId
            deliveredAt := if member.userId == userId then some tStatus else none
            readAt := none })) ∧
    MessagesService.send db userId dto newId tCreate tStatus tUpdate true =
      .error .dependencyFailure := by
  constructor
  · refine ⟨⟨newId, dto.conversationId, userId, dto.content, dto.type, none, tCreate⟩,
      ?_, rfl, rfl, rfl, rfl, ?_⟩
    · unfold MessagesService.send
      rw [hconv]
      simp [hmem]
    · intro member _ hne
      simp [hne]
  · unfold MessagesService.send
    rw [hconv]
    simp [hmem]

/-- Closed instance of `send_atomic_status_fanout` on a two-member direct
conversation: the send succeeds and appends one message, a delivered sender
row and a pending recipient row. -/
theorem send_atomic_status_fanout_witness :
    ∃ m : Message,
      MessagesService.send
        { users := [], conversations :=
            [{ id := "c", isGroup := false, name := none, createdAt := 0, updatedAt := 0,
               members := [{ userId := "u", role := "member" },
                           { userId := "v", role := "member" }] }],
          messages := [], statuses := [] }
        "u" { conversationId := "c", content := some "hi", type := "text",
              mediaUrl := none, mediaMeta := none } "m1" 5 5 5 false =
      .ok ({ users := [], conversations :=
              [{ id := "c", isGroup := false, name := none, createdAt := 0, updatedAt := 5,
                 members := [{ userId := "u", role := "member" },
                             { userId := "v", role := "member" }] }],
             messages := [m],
             statuses := [{ messageId := m.id, userId := "u", deliveredAt := some 5,
                            readAt := none },
                          { messageId := m.id, userId := "v", deliveredAt := none,
                            readAt := none }] }, m) := by
  obtain ⟨m, hok, -, -, -, -, -⟩ := (send_atomic_status_fanout
    { users := [], conversations :=
        [{ id := "c", isGroup := false, name := none, createdAt := 0, updatedAt := 0,
           members := [{ userId := "u", role := "member" },
                       { userId := "v", role := "member" }] }],
      messages := [], statuses := [] }
    "u" { conversationId := "c", content := some "hi", type := "text",
          mediaUrl := none, mediaMeta := none } "m1" 5 5 5
    { id := "c", isGroup := false, name := none, createdAt := 0, updatedAt := 0,
      members := [{ userId := "u", role := "member" },
                  { userId := "v", role := "member" }] }
    (by rfl) (by rfl)).1
  exact ⟨m, by rw [hok]; rfl⟩

/-- C2 evidence.  `MessagesService.send` never writes `mediaUrl`: the socket
gateway validates that an image or video payload carries a `mediaUrl` and
forwards it, yet the persisted message has a null `mediaUrl`; and the
service itself performs no type-versus-payload validation at all, so an
image message without any media path persists as well. -/
theorem send_drops_mediaUrl :
    (ChatGateway.handleSendMessage
        { users := [],
          conversations :=
            [{ id := "c", isGroup := false, name := none, createdAt := 0, updatedAt := 0,
               members := [{ userId := "u", role := "member" },
                           { userId := "v", role := "member" }] }],
          messages := [], statuses := [] }
        (some "u")
        { conversationId := "c", content := none, type := "image",
          mediaUrl := some "conversations/c/u_1_p.jpg", mediaMeta := none }
        "m1" 0 0 0 false).map
      (fun p => (p.2.type, p.2.mediaUrl, p.1.messages.map (·.mediaUrl))) =
      .ok ("image", none, [none]) ∧
    (MessagesService.send
        { users := [],
          conversations :=
            [{ id := "c", isGroup := false, name := none, createdAt := 0, updatedAt := 0,
               members := [{ userId := "u", role := "member" },
                           { userId := "v", role := "member" }] }],
          messages := [], statuses := [] }
        "u"
        { conversationId := "c", content := none, type := "image",
          mediaUrl := none, mediaMeta := none }
        "m1" 0 0 0 false).map
      (fun p => (p.2.type, p.2.content, p.2.mediaUrl)) =
      .ok ("image", none, none) := by
  exact ⟨rfl, rfl⟩

/-- C5 counterexample.  At a concrete send in which the database clock has
advanced by one millisecond between the message insert and the status
insert, the sender status row has `deliveredAt = 1` while the message has
`createdAt = 0`, so the sender row `deliveredAt` does not equal
`m.createdAt` exactly. -/
theorem sender_delivered_not_createdAt :
    (MessagesService.send
        { users := [],
          conversations :=
            [{ id := "c", isGroup := false, name := none, createdAt := 0, updatedAt := 0,
               members := [{ userId := "u", role := "member" },
                           { userId := "v", role := "member" }] }],
          messages := [], statuses := [] }
        "u" { conversationId := "c", content := some "hi", type := "text",
              mediaUrl := none, mediaMeta := none } "m1" 0 1 2 false).map
      (fun p => p.1.statuses.all (fun s =>
        !(s.messageId == p.2.id && s.userId == p.2.senderId) ||
          s.deliveredAt == some p.2.createdAt)) = .ok false := by
  rfl

/-- C5 as amended.  A message created by send has exactly one status row
with `userId = m.senderId`; that row is created in the same transaction
with `deliveredAt` equal to the timestamp taken when the status rows are
written, which under a monotone clock is at least `m.createdAt` but need
not equal it exactly. -/
theorem sender_status_row_unique_delivered (db : DB) (userId : String)
    (dto : SendMessageDto) (newId : String) (tCreate tStatus tUpdate : Time)
    (conv : Conversation)
    (hconv : db.conversations.find? (fun c => c.id == dto.conversationId) = some conv)
    (hmem : conv.members.any (fun m => m.userId == userId) = true)
    (hnd : (conv.members.map (·.userId)).Nodup)
    (hfresh : ∀ s ∈ db.statuses, s.messageId ≠ newId)
    (ht : tCreate ≤ tStatus) :
    ∃ db' m, MessagesService.send db userId dto newId tCreate tStatus tUpdate false =
        .ok (db', m) ∧
      (db'.statuses.filter (fun s => s.messageId == m.id && s.userId == m.senderId)).length
        = 1 ∧
      (∀ s ∈ db'.statuses, s.messageId = m.id → s.userId = m.senderId →
        s.deliveredAt = some tStatus ∧ m.createdAt ≤ tStatus) := by
  obtain ⟨m, hok, hid, hsender, hcid, hcreated, -⟩ :=
    (send_atomic_status_fanout db userId dto newId tCreate tStatus tUpdate conv hconv hmem).1
  refine ⟨_, m, hok, ?_, ?_⟩
  · rw [List.filter_append]
    have hold : db.statuses.filter
        (fun s => s.messageId == m.id && s.userId == m.senderId) = [] := by
      rw [List.filter_eq_nil_iff]
      intro s hs
      simp only [Bool.and_eq_true, beq_iff_eq, not_and]
      intro hsid
      exact absurd (hid ▸ hsid) (hfresh s hs)
    rw [hold, List.nil_append]
    have hmap : (conv.members.map (fun member =>
        ({ messageId := m.id, userId := member.userId
           deliveredAt := if member.userId == userId then some tStatus else none
           readAt := none } : MessageStatus))).filter
          (fun s => s.messageId == m.id && s.userId == m.senderId) =
        (conv.members.filter (fun member => member.userId == userId)).map
          (fun member =>
            ({ messageId := m.id, userId := member.userId
               deliveredAt := if member.userId == userId then some tStatus else none
               readAt := none } : MessageStatus)) := by
      rw [List.filter_map]
      congr 1
      apply List.filter_congr
      intro member _
      simp [hsender]
    rw [hmap, List.length_map]
    exact filter_key_length_one (fun member => member.userId) userId conv.members hnd hmem
  · intro s hs hsid hsuser
    have hsplit := List.mem_append.mp hs
    rcases hsplit with hsold | hsnew
    · exact absurd (hid ▸ hsid) (hfresh s hsold)
    · obtain ⟨member, -, rfl⟩ := List.mem_map.mp hsnew
      have : member.userId = userId := by simpa [hsender] using hsuser
      simp [this, hcreated, ht]

/-- Closed instance of `sender_status_row_unique_delivered` on a two-member
conversation with the status timestamp one tick after the create. -/
theorem sender_status_row_unique_delivered_witness :
    ∃ db' m, MessagesService.send
        { users := [],
          conversations :=
            [{ id := "c", isGroup := false, name := none, createdAt := 0, updatedAt := 0,
               members := [{ userId := "u", role := "member" },
                           { userId := "v", role := "member" }] }],
          messages := [], statuses := [] }
        "u" { conversationId := "c", content := some "hi", type := "text",
              mediaUrl := none, mediaMeta := none } "m1" 0 1 2 false = .ok (db', m) ∧
      (db'.statuses.filter (fun s => s.messageId == m.id && s.userId == m.senderId)).length
        = 1 ∧
      (∀ s ∈ db'.statuses, s.messageId = m.id → s.userId = m.senderId →
        s.deliveredAt = some 1 ∧ m.createdAt ≤ 1) :=
  sender_status_row_unique_delivered _ "u" _ "m1" 0 1 2
    { id := "c", isGroup := false, name := none, createdAt := 0, updatedAt := 0,
      members := [{ userId := "u", role := "member" },
                  { userId := "v", role := "member" }] }
    (by rfl) (by rfl) (by decide) (by simp) (by decide)

/-- Inversion of a successful `message_delivered`: the socket was
authenticated and the new state replaces the status table by the
`updateMany` image. -/
theorem handleMessageDelivered_ok {db : DB} {cu : Option String}
    {conversationId messageId : String} {now : Time} {db' : DB}
    {out : MessageDeliveredOut}
    (h : ChatGateway.handleMessageDelivered db cu conversationId messageId now =
      .ok (db', out)) :
    ∃ uid, cu = some uid ∧
      db' = { db with statuses := db.statuses.map (fun s =>
        if s.messageId == messageId && s.userId == uid && s.deliveredAt == none
        then { s with deliveredAt := some now } else s) } ∧
      out = { conversationId := conversationId, messageId := messageId,
              userId := uid, deliveredAt := now } := by
  cases cu with
  | none => exact absurd h (by simp [ChatGateway.handleMessageDelivered])
  | some uid =>
    simp only [ChatGateway.handleMessageDelivered] at h
    split_ifs at h
    rw [Except.ok.injEq, Prod.mk.injEq] at h
    exact ⟨uid, rfl, h.1.symm, h.2.symm⟩

/-- Inversion of a successful `message_read`: the socket was authenticated,
the broadcast carries the ids of the batch that exist in the conversation,
and the new state replaces the status table by the two chained `updateMany`
images computed with one shared timestamp. -/
theorem handleMessageRead_ok {db : DB} {cu : Option String}
    {conversationId : String} {messageIds : List String} {now : Time}
    {db' : DB} {out : MessageReadOut}
    (h : ChatGateway.handleMessageRead db cu conversationId messageIds now =
      .ok (db', out)) :
    ∃ uid, cu = some uid ∧
      out = { conversationId := conversationId
              messageIds := (db.messages.filter (fun m =>
                messageIds.contains m.id && m.conversationId == conversationId)).map (·.id)
              userId := uid, readAt := now } ∧
      db' = { db with statuses :=
        (markReadRows
          ((db.messages.filter (fun m =>
            messageIds.contains m.id && m.conversationId == conversationId)).map (·.id))
          uid now
          (markDeliveredRows
            ((db.messages.filter (fun m =>
              messageIds.contains m.id && m.conversationId == conversationId)).map (·.id))
            uid now db.statuses)) } := by
  cases cu with
  | none => exact absurd h (by simp [ChatGateway.handleMessageRead])
  | some uid =>
    simp only [ChatGateway.handleMessageRead] at h
    split_ifs at h
    rw [Except.ok.injEq, Prod.mk.injEq] at h
    exact ⟨uid, rfl, h.2.symm, h.1.symm⟩

/-- Inversion of a successful send, restricted to the status table: the new
rows are appended after the existing ones. -/
theorem send_ok_statuses {db : DB} {userId : String} {dto : SendMessageDto}
    {newId : String} {tCreate tStatus tUpdate : Time} {txFails : Bool}
    {db' : DB} {m : Message}
    (h : MessagesService.send db userId dto newId tCreate tStatus tUpdate txFails =
      .ok (db', m)) :
    ∃ rest, db'.statuses = db.statuses ++ rest := by
  unfold MessagesService.send at h
  cases hfind : db.conversations.find? (fun c => c.id == dto.conversationId) with
  | none => rw [hfind] at h; exact absurd h (by simp)
  | some conv =>
    simp only [hfind] at h
    split_ifs at h
    rw [Except.ok.injEq, Prod.mk.injEq] at h
    exact ⟨_, by rw [← h.1]⟩

/-- Positional form of the `message_delivered` row update. -/
theorem delivered_update_get? (mid uid : String) (now : Time)
    {l : List MessageStatus} {i : Nat} {s : MessageStatus}
    (hs : l.get? i = some s) :
    (l.map (fun x =>
      if x.messageId == mid && x.userId == uid && x.deliveredAt == none
      then { x with deliveredAt := some now } else x)).get? i =
      some (if s.messageId == mid && s.userId == uid && s.deliveredAt == none
        then { s with deliveredAt := some now } else s) := by
  rw [List.get?_map, hs]
  rfl

/-- Positional form of `markDeliveredRows`. -/
theorem markDeliveredRows_get? (validIds : List String) (uid : String) (now : Time)
    {l : List MessageStatus} {i : Nat} {s : MessageStatus}
    (hs : l.get? i = some s) :
    (markDeliveredRows validIds uid now l).get? i =
      some (if validIds.contains s.messageId && s.userId == uid && s.deliveredAt == none
        then { s with deliveredAt := some now } else s) := by
  unfold markDeliveredRows
  rw [List.get?_map, hs]
  rfl

/-- Positional form of `markReadRows`. -/
theorem markReadRows_get? (validIds : List String) (uid : String) (now : Time)
    {l : List MessageStatus} {i : Nat} {s : MessageStatus}
    (hs : l.get? i = some s) :
    (markReadRows validIds uid now l).get? i =
      some (if validIds.contains s.messageId && s.userId == uid && s.readAt == none
        then { s with readAt := some now } else s) := by
  unfold markReadRows
  rw [List.get?_map, hs]
  rfl

/-- Row evolution under a successful `message_delivered`: each status row
keeps its position; a non-null `deliveredAt` is untouched and `readAt` is
never written. -/
theorem delivered_preserves_rows {db : DB} {cu : Option String}
    {cid mid : String} {now : Time} {db' : DB} {out : MessageDeliveredOut}
    (h : ChatGateway.handleMessageDelivered db cu cid mid now = .ok (db', out)) :
    ∀ i s, db.statuses.get? i = some s →
      ∃ s', db'.statuses.get? i = some s' ∧
        (∀ t, s.deliveredAt = some t → s'.deliveredAt = some t) ∧
        s'.readAt = s.readAt := by
  obtain ⟨uid, -, rfl, -⟩ := handleMessageDelivered_ok h
  intro i s hs
  by_cases hcond : (s.messageId == mid && s.userId == uid && s.deliveredAt == none) = true
  · refine ⟨{ s with deliveredAt := some now }, ?_, ?_, rfl⟩
    · rw [delivered_update_get? mid uid now hs, if_pos hcond]
    · intro t ht
      rw [ht] at hcond
      simp at hcond
  · refine ⟨s, ?_, fun t ht => ht, rfl⟩
    rw [delivered_update_get? mid uid now hs, if_neg hcond]

/-- Row evolution under a successful `message_read`: each status row keeps
its position and non-null `deliveredAt` and `readAt` values are
untouched. -/
theorem read_preserves_rows {db : DB} {cu : Option String} {cid : String}
    {mids : List String} {now : Time} {db' : DB} {out : MessageReadOut}
    (h : ChatGateway.handleMessageRead db cu cid mids now = .ok (db', out)) :
    ∀ i s, db.statuses.get? i = some s →
      ∃ s', db'.statuses.get? i = some s' ∧
        (∀ t, s.deliveredAt = some t → s'.deliveredAt = some t) ∧
        (∀ t, s.readAt = some t → s'.readAt = some t) := by
  obtain ⟨uid, -, -, rfl⟩ := handleMessageRead_ok h
  intro i s hs
  set vids : List String := (db.messages.filter (fun m =>
    mids.contains m.id && m.conversationId == cid)).map (·.id) with hvids
  by_cases hc1 : (vids.contains s.messageId && s.userId == uid && s.deliveredAt == none) = true
  · have h1 := markDeliveredRows_get? vids uid now hs
    rw [if_pos hc1] at h1
    by_cases hc2 : (vids.contains s.messageId && s.userId == uid && s.readAt == none) = true
    · refine ⟨{ s with deliveredAt := some now, readAt := some now }, ?_, ?_, ?_⟩
      · rw [markReadRows_get? vids uid now h1, if_pos hc2]
      · intro t ht
        rw [ht] at hc1
        simp at hc1
      · intro t ht
        rw [ht] at hc2
        simp at hc2
    · refine ⟨{ s with deliveredAt := some now }, ?_, ?_, fun t ht => ht⟩
      · rw [markReadRows_get? vids uid now h1, if_neg hc2]
      · intro t ht
        rw [ht] at hc1
        simp at hc1
  · have h1 := markDeliveredRows_get? vids uid now hs
    rw [if_neg hc1] at h1
    by_cases hc2 : (vids.contains s.messageId && s.userId == uid && s.readAt == none) = true
    · refine ⟨{ s with readAt := some now }, ?_, fun t ht => ht, ?_⟩
      · rw [markReadRows_get? vids uid now h1, if_pos hc2]
      · intro t ht
        rw [ht] at hc2
        simp at hc2
    · refine ⟨s, ?_, fun t ht => ht, fun t ht => ht⟩
      rw [markReadRows_get? vids uid now h1, if_neg hc2]

/-- Running `message_delivered` twice for the same `(messageId, userId)`
leaves the status table of the first run untouched: after the first run no
matching row has a null `deliveredAt` left, so the second `updateMany`
matches nothing. -/
theorem redeliver_is_noop {db : DB} {uid cid cid2 mid : String} {now now2 : Time}
    {db1 db2 : DB} {o1 o2 : MessageDeliveredOut}
    (h1 : ChatGateway.handleMessageDelivered db (some uid) cid mid now = .ok (db1, o1))
    (h2 : ChatGateway.handleMessageDelivered db1 (some uid) cid2 mid now2 = .ok (db2, o2)) :
    db2.statuses = db1.statuses := by
  obtain ⟨uid1, hcu1, hdb1, -⟩ := handleMessageDelivered_ok h1
  obtain ⟨uid2, hcu2, hdb2, -⟩ := handleMessageDelivered_ok h2
  obtain rfl : uid = uid1 := Option.some.inj hcu1
  obtain rfl : uid = uid2 := Option.some.inj hcu2
  have hdb1s : db1.statuses = db.statuses.map (fun s =>
      if s.messageId == mid && s.userId == uid && s.deliveredAt == none
      then { s with deliveredAt := some now } else s) := by rw [hdb1]
  have hdb2s : db2.statuses = db1.statuses.map (fun s =>
      if s.messageId == mid && s.userId == uid && s.deliveredAt == none
      then { s with deliveredAt := some now2 } else s) := by rw [hdb2]
  apply List.ext
  intro i
  cases hvi0 : db.statuses.get? i with
  | none =>
    have h1n : db1.statuses.get? i = none := by
      rw [hdb1s, List.get?_map, hvi0]
      rfl
    have h2n : db2.statuses.get? i = none := by
      rw [hdb2s, List.get?_map, h1n]
      rfl
    rw [h2n, h1n]
  | some s0 =>
    have hstep1 : db1.statuses.get? i =
        some (if s0.messageId == mid && s0.userId == uid && s0.deliveredAt == none
          then { s0 with deliveredAt := some now } else s0) := by
      rw [hdb1s]
      exact delivered_update_get? mid uid now hvi0
    by_cases hc0 : (s0.messageId == mid && s0.userId == uid && s0.deliveredAt == none) = true
    · rw [if_pos hc0] at hstep1
      have hstep2 := delivered_update_get? mid uid now2 (l := db1.statuses) hstep1
      have hcfalse : ¬(({ s0 with deliveredAt := some now } : MessageStatus).messageId == mid &&
          ({ s0 with deliveredAt := some now } : MessageStatus).userId == uid &&
          ({ s0 with deliveredAt := some now } : MessageStatus).deliveredAt == none) = true := by
        simp
      rw [if_neg hcfalse] at hstep2
      rw [hdb2s, hstep2, hstep1]
    · rw [if_neg hc0] at hstep1
      have hstep2 := delivered_update_get? mid uid now2 (l := db1.statuses) hstep1
      rw [if_neg hc0] at hstep2
      rw [hdb2s, hstep2, hstep1]

/-- C3.  `deliveredAt` and `readAt` are monotone: any status row whose
field is already non-null keeps that exact value across
`message_delivered`, `message_read` and `send` (which only appends rows);
re-delivering for the same `(messageId, userId)` after a success changes no
status row at all, and re-running `message_read` with an overlapping batch
leaves the `readAt` of already-read entries unchanged. -/
theorem receipt_fields_monotone :
    (∀ (db : DB) (cu : Option String) (cid mid : String) (now : Time)
        (db' : DB) (out : MessageDeliveredOut),
      ChatGateway.handleMessageDelivered db cu cid mid now = .ok (db', out) →
      ∀ i s, db.statuses.get? i = some s →
        ∃ s', db'.statuses.get? i = some s' ∧
          (∀ t, s.deliveredAt = some t → s'.deliveredAt = some t) ∧
          s'.readAt = s.readAt) ∧
    (∀ (db : DB) (cu : Option String) (cid : String) (mids : List String) (now : Time)
        (db' : DB) (out : MessageReadOut),
      ChatGateway.handleMessageRead db cu cid mids now = .ok (db', out) →
      ∀ i s, db.statuses.get? i = some s →
        ∃ s', db'.statuses.get? i = some s' ∧
          (∀ t, s.deliveredAt = some t → s'.deliveredAt = some t) ∧
          (∀ t, s.readAt = some t → s'.readAt = some t)) ∧
    (∀ (db : DB) (u : String) (dto : SendMessageDto) (newId : String)
        (t1 t2 t3 : Time) (txF : Bool) (db' : DB) (m : Message),
      MessagesService.send db u dto newId t1 t2 t3 txF = .ok (db', m) →
      ∀ i s, db.statuses.get? i = some s → db'.statuses.get? i = some s) ∧
    (∀ (db : DB) (uid cid cid2 mid : String) (now now2 : Time)
        (db1 db2 : DB) (o1 o2 : MessageDeliveredOut),
      ChatGateway.handleMessageDelivered db (some uid) cid mid now = .ok (db1, o1) →
      ChatGateway.handleMessageDelivered db1 (some uid) cid2 mid now2 = .ok (db2, o2) →
      db2.statuses = db1.statuses) ∧
    (∀ (db : DB) (cu : Option String) (cid cid2 : String)
        (mids mids2 : List String) (now now2 : Time)
        (db1 db2 : DB) (o1 o2 : MessageReadOut),
      ChatGateway.handleMessageRead db cu cid mids now = .ok (db1, o1) →
      ChatGateway.handleMessageRead db1 cu cid2 mids2 now2 = .ok (db2, o2) →
      ∀ i s t, db1.statuses.get? i = some s → s.readAt = some t →
        ∃ s', db2.statuses.get? i = some s' ∧ s'.readAt = some t) := by
  refine ⟨?_, ?_, ?_, ?_, ?_⟩
  · intro db cu cid mid now db' out h
    exact delivered_preserves_rows h
  · intro db cu cid mids now db' out h
    exact read_preserves_rows h
  · intro db u dto newId t1 t2 t3 txF db' m h i s hs
    obtain ⟨rest, hst⟩ := send_ok_statuses h
    rw [hst]
    rw [List.get?_append (List.get?_eq_some.mp hs).1]
    exact hs
  · intro db uid cid cid2 mid now now2 db1 db2 o1 o2 h1 h2
    exact redeliver_is_noop h1 h2
  · intro db cu cid cid2 mids mids2 now now2 db1 db2 o1 o2 h1 h2 i s t hs ht
    obtain ⟨s', hs', -, hread⟩ := read_preserves_rows h2 i s hs
    exact ⟨s', hs', hread t ht⟩

/-- Closed instance of `receipt_fields_monotone`: applying its idempotence
conjunct to two concrete back-to-back `message_delivered` runs shows the
second run changes no status row. -/
theorem receipt_fields_monotone_witness :
    ({ users := [], conversations :=
        [{ id := "c", isGroup := false, name := none, createdAt := 0, updatedAt := 0,
           members := [{ userId := "u", role := "member" },
                       { userId := "v", role := "member" }] }],
       messages := [],
       statuses := [{ messageId := "m1", userId := "v",
                      deliveredAt := some 7, readAt := none }] } : DB).statuses =
    ({ users := [], conversations :=
        [{ id := "c", isGroup := false, name := none, createdAt := 0, updatedAt := 0,
           members := [{ userId := "u", role := "member" },
                       { userId := "v", role := "member" }] }],
       messages := [],
       statuses := [{ messageId := "m1", userId := "v",
                      deliveredAt := some 7, readAt := none }] } : DB).statuses :=
  receipt_fields_monotone.2.2.2.1
    { users := [], conversations :=
        [{ id := "c", isGroup := false, name := none, createdAt := 0, updatedAt := 0,
           members := [{ userId := "u", role := "member" },
                       { userId := "v", role := "member" }] }],
      messages := [],
      statuses := [{ messageId := "m1", userId := "v",
                     deliveredAt := none, readAt := none }] }
    "v" "c" "c" "m1" 7 9 _ _
    { conversationId := "c", messageId := "m1", userId := "v", deliveredAt := 7 }
    { conversationId := "c", messageId := "m1", userId := "v", deliveredAt := 9 }
    (by rfl) (by rfl)

/-- C4.  A successful `message_read` touches, in one transaction, only the
status rows of the authenticated caller whose message id is among the batch
ids that exist in the stated conversation: on those rows `deliveredAt` is
set to the shared timestamp where null and kept where non-null, `readAt` is
set to the same timestamp where null and kept where non-null; every other
status row and the users, conversations and messages tables are returned
unchanged, and the broadcast carries exactly the valid ids. -/
theorem read_batch_frame {db : DB} {uid cid : String} {mids : List String}
    {now : Time} {db' : DB} {out : MessageReadOut}
    (h : ChatGateway.handleMessageRead db (some uid) cid mids now = .ok (db', out)) :
    out.userId = uid ∧ out.readAt = now ∧
    (∀ x, x ∈ out.messageIds ↔
      ∃ m ∈ db.messages, m.id = x ∧ x ∈ mids ∧ m.conversationId = cid) ∧
    db'.statuses = db.statuses.map (fun s =>
      if out.messageIds.contains s.messageId && s.userId == uid then
        { s with
          deliveredAt := if s.deliveredAt == none then some now else s.deliveredAt
          readAt := if s.readAt == none then some now else s.readAt }
      else s) ∧
    db'.messages = db.messages ∧ db'.conversations = db.conversations ∧
    db'.users = db.users := by
  obtain ⟨uid1, hcu, hout, hdb'⟩ := handleMessageRead_ok h
  obtain rfl : uid = uid1 := Option.some.inj hcu
  refine ⟨by rw [hout], by rw [hout], ?_, ?_, by rw [hdb'], by rw [hdb'], by rw [hdb']⟩
  · intro x
    rw [hout]
    simp only [List.mem_map, List.mem_filter, Bool.and_eq_true, beq_iff_eq]
    constructor
    · rintro ⟨m, ⟨hm, hcont, hcid⟩, rfl⟩
      exact ⟨m, hm, rfl, by simpa [List.contains, List.elem_iff] using hcont, hcid⟩
    · rintro ⟨m, hm, rfl, hx, hcid⟩
      exact ⟨m, ⟨hm, by simpa [List.contains, List.elem_iff] using hx, hcid⟩, rfl⟩
  · rw [hdb', hout]
    unfold markReadRows markDeliveredRows
    rw [List.map_map]
    apply List.map_congr_left
    intro s hsmem
    clear h hcu hout hdb' hsmem
    obtain ⟨smid, suid, sdel, srd⟩ := s
    simp only [Function.comp_apply]
    generalize ((db.messages.filter (fun m =>
      mids.contains m.id && m.conversationId == cid)).map (·.id)) = V
    by_cases hco : (V.contains smid) = true <;>
      by_cases hu : (suid == uid) = true <;>
        cases sdel <;> cases srd <;>
          simp_all [apply_ite]

/-- Closed instance of `read_batch_frame` on a batch of two messages, one
already delivered to the reader and one not. -/
theorem read_batch_frame_witness :
    ∃ db' out, ChatGateway.handleMessageRead
      { users := [], conversations :=
          [{ id := "c", isGroup := false, name := none, createdAt := 0, updatedAt := 0,
             members := [{ userId := "u", role := "member" },
                         { userId := "v", role := "member" }] }],
        messages :=
          [{ id := "m1", conversationId := "c", senderId := "u", content := some "a",
             type := "text", mediaUrl := none, createdAt := 1 },
           { id := "m2", conversationId := "c", senderId := "u", content := some "b",
             type := "text", mediaUrl := none, createdAt := 2 }],
        statuses :=
          [{ messageId := "m1", userId := "v", deliveredAt := some 3, readAt := none },
           { messageId := "m2", userId := "v", deliveredAt := none, readAt := none }] }
      (some "v") "c" ["m1", "m2"] 9 = .ok (db', out) ∧
    out.userId = "v" ∧ out.readAt = 9 ∧ db'.messages.length = 2 := by
  have h : ChatGateway.handleMessageRead
      { users := [], conversations :=
          [{ id := "c", isGroup := false, name := none, createdAt := 0, updatedAt := 0,
             members := [{ userId := "u", role := "member" },
                         { userId := "v", role := "member" }] }],
        messages :=
          [{ id := "m1", conversationId := "c", senderId := "u", content := some "a",
             type := "text", mediaUrl := none, createdAt := 1 },
           { id := "m2", conversationId := "c", senderId := "u", content := some "b",
             type := "text", mediaUrl := none, createdAt := 2 }],
        statuses :=
          [{ messageId := "m1", userId := "v", deliveredAt := some 3, readAt := none },
           { messageId := "m2", userId := "v", deliveredAt := none, readAt := none }] }
      (some "v") "c" ["m1", "m2"] 9 =
      .ok ({ users := [], conversations :=
              [{ id := "c", isGroup := false, name := none, createdAt := 0, updatedAt := 0,
                 members := [{ userId := "u", role := "member" },
                             { userId := "v", role := "member" }] }],
             messages :=
               [{ id := "m1", conversationId := "c", senderId := "u", content := some "a",
                  type := "text", mediaUrl := none, createdAt := 1 },
                { id := "m2", conversationId := "c", senderId := "u", content := some "b",
                  type := "text", mediaUrl := none, createdAt := 2 }],
             statuses :=
               [{ messageId := "m1", userId := "v", deliveredAt := some 3, readAt := some 9 },
                { messageId := "m2", userId := "v", deliveredAt := some 9, readAt := some 9 }] },
           { conversationId := "c", messageIds := ["m1", "m2"], userId := "v",
             readAt := 9 }) := by rfl
  have hres := read_batch_frame h
  exact ⟨_, _, h, hres.1, hres.2.1, by rw [hres.2.2.2.2.1]; rfl⟩

/-- Inserting into a descending-sorted list is a permutation of consing. -/
theorem insertDesc_perm (x : Message) : ∀ l : List Message, (insertDesc x l).Perm (x :: l)
  | [] => List.Perm.refl _
  | y :: ys => by
    unfold insertDesc
    split
    · exact ((insertDesc_perm x ys).cons y).trans (List.Perm.swap x y ys)
    · exact List.Perm.refl _

/-- The descending sort is a permutation of its input. -/
theorem sortDesc_perm : ∀ l : List Message, (sortDesc l).Perm l
  | [] => List.Perm.refl _
  | a :: as => by
    show (insertDesc a (sortDesc as)).Perm (a :: as)
    exact (insertDesc_perm a (sortDesc as)).trans ((sortDesc_perm as).cons a)

/-- Insertion keeps the list pairwise descending in `createdAt`. -/
theorem insertDesc_pairwise (x : Message) :
    ∀ l : List Message, l.Pairwise (fun a b => b.createdAt ≤ a.createdAt) →
      (insertDesc x l).Pairwise (fun a b => b.createdAt ≤ a.createdAt) := by
  intro l
  induction l with
  | nil => intro _; exact List.pairwise_singleton _ _
  | cons y ys ih =>
    intro h
    rw [List.pairwise_cons] at h
    unfold insertDesc
    split
    · rename_i hxy
      rw [List.pairwise_cons]
      refine ⟨?_, ih h.2⟩
      intro z hz
      rcases List.mem_cons.mp ((insertDesc_perm x ys).mem_iff.mp hz) with rfl | hzys
      · exact hxy
      · exact h.1 z hzys
    · rename_i hxy
      rw [List.pairwise_cons]
      refine ⟨?_, List.pairwise_cons.mpr ⟨h.1, h.2⟩⟩
      intro z hz
      rcases List.mem_cons.mp hz with rfl | hzys
      · exact le_of_not_le hxy
      · exact le_trans (h.1 z hzys) (le_of_not_le hxy)

/-- The descending sort is pairwise descending in `createdAt`. -/
theorem sortDesc_pairwise : ∀ l : List Message,
    (sortDesc l).Pairwise (fun a b => b.createdAt ≤ a.createdAt)
  | [] => List.Pairwise.nil
  | a :: as => insertDesc_pairwise a (sortDesc as) (sortDesc_pairwise as)

/-- The store used by the literal pagination scenario: one conversation with
member u and 25 messages with `createdAt` 1 through 25. -/
def pagedDB : DB :=
  { users := []
    conversations := [{ id := "c", isGroup := true, name := some "g", createdAt := 0,
                        updatedAt := 0, members := [{ userId := "u", role := "member" }] }]
    messages := (List.range 25).map (fun i =>
      { id := Nat.repr (i + 1), conversationId := "c", senderId := "u",
        content := some "hi", type := "text", mediaUrl := none, createdAt := i + 1 })
    statuses := [] }

/-- C6.  A successful history page contains only messages of the requested
conversation, all strictly older than the cursor when one is given, ordered
`createdAt` descending, with at most `limit` rows; `nextCursor` is the
`createdAt` of the last returned message exactly when a full page of
`limit` rows came back and null otherwise, and `hasMore` reports exactly
that full-page condition.  On the literal 25-message store with
`limit = 20`, the first page returns 20 rows with `hasMore` true and cursor
6, and the page after cursor 6 returns 5 rows with `hasMore` false. -/
theorem pagination_cursor_window {db : DB} {cid uid : String}
    {cursor : Option Time} {limit : Nat} {r : PageResult}
    (h : MessagesService.findByConversation db cid uid cursor limit = .ok r) :
    ((∀ m ∈ r.messages, m ∈ db.messages ∧ m.conversationId = cid ∧
        ∀ c, cursor = some c → m.createdAt < c) ∧
      r.messages.Pairwise (fun a b => b.createdAt ≤ a.createdAt) ∧
      r.messages.length ≤ limit ∧
      r.nextCursor = (if r.messages.length == limit
        then r.messages.getLast?.map (·.createdAt) else none) ∧
      r.hasMore = (r.messages.length == limit)) ∧
    (MessagesService.findByConversation pagedDB "c" "u" none 20).map
      (fun p => (p.messages.length, p.hasMore, p.nextCursor)) =
      .ok (20, true, some 6) ∧
    (MessagesService.findByConversation pagedDB "c" "u" (some 6) 20).map
      (fun p => (p.messages.length, p.hasMore, p.nextCursor)) =
      .ok (5, false, none) := by
  have hpage : ∀ m ∈ (sortDesc (db.messages.filter (fun m =>
      m.conversationId == cid &&
        match cursor with
        | some c => decide (m.createdAt < c)
        | none => true))).take limit,
      m ∈ db.messages ∧ m.conversationId = cid ∧
        ∀ c, cursor = some c → m.createdAt < c := by
    intro m hm
    have hmem := List.take_subset _ _ hm
    have hfil := (sortDesc_perm _).mem_iff.mp hmem
    rw [List.mem_filter] at hfil
    obtain ⟨hmdb, hpred⟩ := hfil
    rw [Bool.and_eq_true] at hpred
    refine ⟨hmdb, by simpa using hpred.1, ?_⟩
    intro c hc
    rw [hc] at hpred
    exact of_decide_eq_true hpred.2
  refine ⟨?_, by rfl, by rfl⟩
  unfold MessagesService.findByConversation at h
  cases hfind : db.conversations.find? (fun c => c.id == cid) with
  | none => rw [hfind] at h; exact absurd h (by simp)
  | some conv =>
    simp only [hfind] at h
    split_ifs at h with hmemb hfull
    · rw [Except.ok.injEq] at h
      subst h
      exact ⟨hpage, (sortDesc_pairwise _).sublist (List.take_sublist _ _),
        List.length_take_le _ _, by rw [if_pos hfull], rfl⟩
    · rw [Except.ok.injEq] at h
      subst h
      exact ⟨hpage, (sortDesc_pairwise _).sublist (List.take_sublist _ _),
        List.length_take_le _ _, by rw [if_neg hfull], rfl⟩

/-- Closed instance of `pagination_cursor_window` at cursor 2 on the
25-message store: the one returned message respects the page bound. -/
theorem pagination_cursor_window_witness :
    ∃ r, MessagesService.findByConversation pagedDB "c" "u" (some 2) 20 = .ok r ∧
      r.messages.length ≤ 20 ∧ r.hasMore = (r.messages.length == 20) := by
  have h : MessagesService.findByConversation pagedDB "c" "u" (some 2) 20 =
      .ok { messages := [{ id := "1", conversationId := "c", senderId := "u",
                           content := some "hi", type := "text", mediaUrl := none,
                           createdAt := 1 }],
            nextCursor := none, hasMore := false } := by rfl
  have hr := pagination_cursor_window h
  exact ⟨_, h, hr.1.2.2.1, hr.1.2.2.2.2⟩

/-- C7.  Creating a direct conversation is idempotent under strict
member-set equality: when the store satisfies the direct-conversation shape
invariant (every non-group conversation has exactly two distinct members)
and contains a unique non-group conversation whose member set is exactly
`{userId, otherId}`, `create` returns that conversation unchanged — same
id, store untouched — regardless of any group conversations that merely
contain the two users, which the `isGroup = false` filter and the
two-member strict equality check exclude. -/
theorem direct_conversation_idempotent (db : DB) (userId otherId : String)
    (name : Option String) (newId : String) (now : Time) (c : Conversation)
    (hidnd : (db.users.map (·.id)).Nodup)
    (huser : otherId ∈ db.users.map (·.id))
    (hdirect : ∀ c' ∈ db.conversations, c'.isGroup = false →
        c'.members.length = 2 ∧ (c'.members.map (·.userId)).Nodup)
    (hc : c ∈ db.conversations) (hcg : c.isGroup = false)
    (hcm : (c.members.map (·.userId)).Perm [userId, otherId])
    (huniq : ∀ c' ∈ db.conversations, c'.isGroup = false →
        (c'.members.map (·.userId)).Perm [userId, otherId] → c' = c) :
    ConversationsService.create db userId
      { userIds := [otherId], isGroup := false, name := name } newId now =
      .ok (db, c) := by
  have hflen : ((db.users.filter
      (fun u => ([otherId] : List String).contains u.id)).length == 1) = true := by
    have hcongr : db.users.filter (fun u => ([otherId] : List String).contains u.id)
        = db.users.filter (fun u => u.id == otherId) := by
      apply List.filter_congr
      intro u _
      by_cases h2 : u.id = otherId <;> simp [List.contains, h2]
    obtain ⟨u, hu, hid⟩ := List.mem_map.mp huser
    rw [hcongr, filter_key_length_one (fun u => u.id) otherId db.users hidnd
      (List.any_eq_true.mpr ⟨u, hu, by simp [hid]⟩)]
    rfl
  have hfind : db.conversations.find? (fun c' =>
      !c'.isGroup && c'.members.all
        (fun m => m.userId == userId || m.userId == otherId)) = some c := by
    apply find?_of_unique _ c db.conversations hc
    · rw [hcg]
      simp only [Bool.not_false, Bool.true_and]
      rw [List.all_eq_true]
      intro mb hmb
      have : mb.userId ∈ [userId, otherId] :=
        hcm.mem_iff.mp (List.mem_map_of_mem (fun m => m.userId) hmb)
      rcases List.mem_pair.mp this with he | he <;> simp [he]
    · intro x hx hpx
      rw [Bool.and_eq_true, Bool.not_eq_true'] at hpx
      obtain ⟨hxg, hxall⟩ := hpx
      obtain ⟨hxlen, hxnd⟩ := hdirect x hx hxg
      refine huniq x hx hxg (perm_of_two_choices ?_ hxnd ?_)
      · rw [List.length_map, hxlen]
      · intro a ha
        obtain ⟨mb, hmb, rfl⟩ := List.mem_map.mp ha
        rw [List.all_eq_true] at hxall
        have := hxall mb hmb
        rw [Bool.or_eq_true, beq_iff_eq, beq_iff_eq] at this
        exact this
  have hlen2 : (c.members.length == 2) = true := by
    simp [(hdirect c hc hcg).1]
  have hsort : (sortStrings (c.members.map (·.userId)) ==
      sortStrings [userId, otherId]) = true := by
    rcases perm_pair_eq hcm with he | he
    · rw [he]
      simp
    · rw [he, sortStrings_pair_comm]
      simp
  simp [ConversationsService.create, hflen, hfind, hlen2, hsort]
  have hgoal : List.filter (fun u => decide (u.id = otherId)) db.users
      = List.filter (fun u => ([otherId] : List String).contains u.id) db.users := by
    apply List.filter_congr
    intro u _
    by_cases h2 : u.id = otherId <;> simp [List.contains, h2]
  rw [hgoal]
  simpa using hflen

/-- Closed instance of `direct_conversation_idempotent`: with an existing
direct conversation between u and v, and a group that also contains both,
`create` returns the existing direct conversation and leaves the store
unchanged. -/
theorem direct_conversation_idempotent_witness :
    ConversationsService.create
      { users := [{ id := "u", email := "u@example.com", name := none, image := none },
                  { id := "v", email := "v@example.com", name := none, image := none }],
        conversations :=
          [{ id := "g1", isGroup := true, name := some "Team", createdAt := 0, updatedAt := 0,
             members := [{ userId := "u", role := "admin" },
                         { userId := "v", role := "member" },
                         { userId := "w", role := "member" }] },
           { id := "d1", isGroup := false, name := none, createdAt := 0, updatedAt := 0,
             members := [{ userId := "v", role := "member" },
                         { userId := "u", role := "member" }] }],
        messages := [], statuses := [] }
      "u" { userIds := ["v"], isGroup := false, name := none } "d2" 9 =
      .ok ({ users := [{ id := "u", email := "u@example.com", name := none, image := none },
                       { id := "v", email := "v@example.com", name := none, image := none }],
             conversations :=
               [{ id := "g1", isGroup := true, name := some "Team", createdAt := 0,
                  updatedAt := 0,
                  members := [{ userId := "u", role := "admin" },
                              { userId := "v", role := "member" },
                              { userId := "w", role := "member" }] },
                { id := "d1", isGroup := false, name := none, createdAt := 0, updatedAt := 0,
                  members := [{ userId := "v", role := "member" },
                              { userId := "u", role := "member" }] }],
             messages := [], statuses := [] },
           { id := "d1", isGroup := false, name := none, createdAt := 0, updatedAt := 0,
             members := [{ userId := "v", role := "member" },
                         { userId := "u", role := "member" }] }) :=
  direct_conversation_idempotent _ "u" "v" none "d2" 9
    { id := "d1", isGroup := false, name := none, createdAt := 0, updatedAt := 0,
      members := [{ userId := "v", role := "member" },
                  { userId := "u", role := "member" }] }
    (by decide) (by decide)
    (by decide) (by decide) rfl (by decide) (by decide)

end Pulse
